import Mathlib

/-!
Shallow embedding of `src/twitch_irc_repeater.py` (class `TwitchIRCRepeater`).

Connections are identified by natural numbers (`Conn`); a Python
`TextIOWrapper` handle is opaque to the registry, so an abstract identifier
is a faithful stand-in.  Python `dict`s are modelled as association lists
observed only through `alook`; Python `set`s are modelled as lists kept
duplicate-free by the operations (`setAdd` inserts only when absent, exactly
like `set.add`).  Text I/O is modelled at the text layer: the strings handed
to `TextIOWrapper.write` / produced by `print` are recorded verbatim
(`print(msg, file=c)` writes `msg` followed by the default terminator "\n").
-/

set_option maxRecDepth 4096

/-- ASCII whitespace as recognised by Python `str.split()` / `str.strip()`
on the protocol's ASCII-framed lines. -/
def pyIsSpace (c : Char) : Bool :=
  c == ' ' || c == '\t' || c == '\n' || c == '\r' || c == '\x0b' || c == '\x0c'

/-- Python `str.strip()` (no argument): drop leading and trailing whitespace. -/
def pyStrip (s : String) : String :=
  String.mk (((s.data.dropWhile pyIsSpace).reverse.dropWhile pyIsSpace).reverse)

/-- Worker for `pySplitAll`: scan the characters, `acc` holding the current
token reversed. -/
def pySplitAllAux : List Char → List Char → List (List Char)
  | [], acc => if acc.isEmpty then [] else [acc.reverse]
  | c :: cs, acc =>
    if pyIsSpace c then
      if acc.isEmpty then pySplitAllAux cs []
      else acc.reverse :: pySplitAllAux cs []
    else pySplitAllAux cs (c :: acc)

/-- Python `str.split()` with no arguments: split on whitespace runs,
dropping empty tokens. -/
def pySplitAll (s : String) : List String := (pySplitAllAux s.data []).map String.mk

/-- Worker for `pySplitMax`: `n` splits remain; the input may begin with
separator whitespace.  When no splits remain, the rest of the string (after
skipping leading whitespace) is one final field, kept verbatim. -/
def pySplitMaxAux : Nat → List Char → List (List Char)
  | 0, cs =>
    let r := cs.dropWhile pyIsSpace
    if r.isEmpty then [] else [r]
  | n + 1, cs =>
    let r := cs.dropWhile pyIsSpace
    if r.isEmpty then []
    else r.takeWhile (fun c => !pyIsSpace c) ::
      pySplitMaxAux n (r.dropWhile (fun c => !pyIsSpace c))

/-- Python `str.split(maxsplit=3)` as used on bridge lines. -/
def pySplitMax3 (s : String) : List String := (pySplitMaxAux 3 s.data).map String.mk

/-- Worker for `pySplitComma`. -/
def pySplitCommaAux : List Char → List Char → List (List Char)
  | [], acc => [acc.reverse]
  | c :: cs, acc =>
    if c == ',' then acc.reverse :: pySplitCommaAux cs []
    else pySplitCommaAux cs (c :: acc)

/-- Python `str.split(",")`: split at every comma, keeping empty pieces
(`"".split(",") == [""]`). -/
def pySplitComma (s : String) : List String := (pySplitCommaAux s.data []).map String.mk

/-- Python `str.startswith(pre)`. -/
def pyStartsWith (pre s : String) : Bool := pre.data.isPrefixOf s.data

/-- Association-list lookup: the sole observation on modelled `dict`s. -/
def alook {α β : Type} [DecidableEq α] (k : α) : List (α × β) → Option β
  | [] => none
  | (k', v) :: rest => if k = k' then some v else alook k rest

/-- `dict` store `d[k] = v`: replace the binding if present, else append. -/
def aput {α β : Type} [DecidableEq α] (k : α) (v : β) : List (α × β) → List (α × β)
  | [] => [(k, v)]
  | (k', v') :: rest => if k = k' then (k, v) :: rest else (k', v') :: aput k v rest

/-- `dict` deletion `del d[k]`. -/
def adel {α β : Type} [DecidableEq α] (k : α) : List (α × β) → List (α × β)
  | [] => []
  | e :: rest => if e.1 = k then adel k rest else e :: adel k rest

/-- Python `set.add`: insert only when absent. -/
def setAdd {α : Type} [DecidableEq α] (x : α) (s : List α) : List α :=
  if x ∈ s then s else x :: s

/-- Python `set.remove` on a duplicate-free set: drop the element. -/
def setRemove {α : Type} [DecidableEq α] (x : α) : List α → List α
  | [] => []
  | y :: rest => if y = x then setRemove x rest else y :: setRemove x rest

/-- A connection handle (the Python `TextIOWrapper` identity). -/
abbrev Conn := Nat

/-- A remote address `(host, port)`. -/
abbrev Addr := String × Nat

/-- The shared state of `TwitchIRCRepeater`: `channel_clients`,
`client_channels` and `client_addr`.  All mutations happen under
`clients_lock`, so a sequential model of the three maps is the reference
semantics of each critical section. -/
structure Registry where
  channel_clients : List (String × List Conn)
  client_channels : List (Conn × List String)
  client_addr : List (Conn × Addr)
deriving DecidableEq

/-- The registry at server start (all three maps empty). -/
def emptyRegistry : Registry := ⟨[], [], []⟩

/-- The subscriber set of a channel (`channel_clients[ch]`, defaulting to
the empty set as a `defaultdict` read would). -/
def chanSubs (r : Registry) (ch : String) : List Conn :=
  (alook ch r.channel_clients).getD []

/-- The channel set of a connection (`client_channels[c]`, defaulting). -/
def connChans (r : Registry) (c : Conn) : List String :=
  (alook c r.client_channels).getD []

/-- `TwitchIRCRepeater.subscribe_channel`: add the connection to the
channel's subscriber set, the channel to the connection's channel set, and
record the connection's address. -/
def subscribe_channel (r : Registry) (c : Conn) (a : Addr) (ch : String) : Registry where
  channel_clients := aput ch (setAdd c (chanSubs r ch)) r.channel_clients
  client_channels := aput c (setAdd ch (connChans r c)) r.client_channels
  client_addr := aput c a r.client_addr

/-- One step of the loop in `remove_subscriber`: delete the connection from
one channel's subscriber set, dropping the channel entry if it became empty.
(Python's `set.remove` would raise `KeyError` were the connection absent;
the registry invariant proved below guarantees it is present whenever this
step runs.) -/
def removeFromChannel (c : Conn) (m : List (String × List Conn)) (ch : String) :
    List (String × List Conn) :=
  let s := setRemove c ((alook ch m).getD [])
  if s = [] then adel ch m else aput ch s m

/-- `TwitchIRCRepeater.remove_subscriber`: if the connection has a channel
set, delete it from every one of those channels (dropping emptied channel
entries), then forget its channel set and its address. -/
def remove_subscriber (r : Registry) (c : Conn) : Registry :=
  match alook c r.client_channels with
  | none => r
  | some chans =>
      { channel_clients := chans.foldl (removeFromChannel c) r.channel_clients
        client_channels := adel c r.client_channels
        client_addr := adel c r.client_addr }

/-- `TwitchIRCRepeater.MSG_AUTH_SUCC.format(nickname=...)`: the seven-line
welcome banner. -/
def MSG_AUTH_SUCC (nickname : String) : String :=
  ":tmi.twitch.tv 001 " ++ nickname ++ " :Welcome, GLHF!\n" ++
  ":tmi.twitch.tv 002 " ++ nickname ++ " :Your host is tmi.twitch.tv\n" ++
  ":tmi.twitch.tv 003 " ++ nickname ++ " :This server is rather new\n" ++
  ":tmi.twitch.tv 004 " ++ nickname ++ " :-\n" ++
  ":tmi.twitch.tv 375 " ++ nickname ++ " :-\n" ++
  ":tmi.twitch.tv 372 " ++ nickname ++ " :You are in a maze of twisty passages, all alike.\n" ++
  ":tmi.twitch.tv 376 " ++ nickname ++ " :>\n"

/-- `TwitchIRCRepeater.MSG_AUTH_FAIL`. -/
def MSG_AUTH_FAIL : String := ":tmi.twitch.tv NOTICE * :Login authentication failed\n"

/-- `TwitchIRCRepeater.MSG_AUTH_INCORRECT_ORDER`. -/
def MSG_AUTH_INCORRECT_ORDER : String := ":tmi.twitch.tv NOTICE * :Improperly formatted auth\n"

/-- `TwitchIRCRepeater.MSG_JOIN_SUCC.format(nickname=..., channel=...)`. -/
def MSG_JOIN_SUCC (nickname channel : String) : String :=
  ":" ++ nickname ++ "!" ++ nickname ++ "@" ++ nickname ++ ".tmi.twitch.tv JOIN " ++
    channel ++ "\n" ++
  ":" ++ nickname ++ ".tmi.twitch.tv 353 " ++ nickname ++ " = " ++ channel ++ " :" ++
    nickname ++ "\n"

/-- An exception raised inside `repeat_message`: either `c.flush()` failed on
a broken subscriber stream (the `print`ed data never reaches the peer), or
the `self.client_addr[c]` lookup raised `KeyError` (after the write already
succeeded). -/
inductive BroadcastErr where
  | writeError (c : Conn)
  | addrKeyError (c : Conn)
deriving DecidableEq

/-- The body of `repeat_message`'s loop over `channel_clients[channel]`:
write `msg` (as `print` does, appending "\n"), flush, then look up the
sender's address for logging.  `broken` is the set of connections whose
flush raises; the first exception aborts the remaining iterations.  Returns
the deliveries performed (connection, exact text written) and the exception,
if any, that escaped the loop. -/
def deliverAll (broken : List Conn) (addrs : List (Conn × Addr)) (msg : String) :
    List Conn → List (Conn × String) × Option BroadcastErr
  | [] => ([], none)
  | c :: rest =>
    if c ∈ broken then ([], some (.writeError c))
    else
      match alook c addrs with
      | none => ([(c, msg ++ "\n")], some (.addrKeyError c))
      | some _ =>
        let out := deliverAll broken addrs msg rest
        ((c, msg ++ "\n") :: out.1, out.2)

/-- `TwitchIRCRepeater.repeat_message`: under the lock, if the channel has
an entry, write `msg` to every subscriber.  An exception on one subscriber
is not caught here: it escapes to the caller (second component). -/
def repeat_message (broken : List Conn) (r : Registry) (channel msg : String) :
    List (Conn × String) × Option BroadcastErr :=
  match alook channel r.channel_clients with
  | none => ([], none)
  | some cs => deliverAll broken r.client_addr msg cs

/-- How the handler loop in `TwitchIRCRepeater.listener` ended. -/
inductive ExitKind where
  | eof            -- the inbound line sequence ended cleanly
  | dropClient     -- a `DropClient` exception was raised
  | assertFail     -- the `assert channel.startswith("#")` failed
  | stopIteration  -- `next(line_iter)` on an exhausted stream (mid-PASS)
  | broadcastErr   -- an exception escaped `repeat_message`
deriving DecidableEq

/-- Everything observable about one run of the handler: replies written to
the handled connection (via `irc_stream_reply`), messages delivered to
subscriber connections (via `repeat_message`), the final registry, the
session nickname, how the loop ended, and whether the stream was closed. -/
structure HandlerOut where
  replies : List String
  deliveries : List (Conn × String)
  reg : Registry
  nickname : Option String
  exitk : ExitKind
  closed : Bool
deriving DecidableEq

/-- The check `len(nick_line) != 2 or nick_line[0] != "NICK"` (negated). -/
def nickLineOk (toks : List String) : Bool :=
  match toks with
  | [k, _] => k == "NICK"
  | _ => false

/-- The check `len(join_line) != 2 or join_line[0] != "JOIN"` (negated). -/
def joinLineOk (toks : List String) : Bool :=
  match toks with
  | [k, _] => k == "JOIN"
  | _ => false

/-- The loop `for channel in channels:` of the JOIN branch: subscribe to
each listed channel and reply with the join banner, in list order. -/
def joinAll (me : Conn) (a : Addr) (n : String) :
    Registry → List String → Registry × List String
  | reg, [] => (reg, [])
  | reg, ch :: rest =>
    let out := joinAll me a n (subscribe_channel reg me a ch) rest
    (out.1, MSG_JOIN_SUCC n ch :: out.2)

/-- The outcome of processing one inbound line (other than the second line
a `PASS` exchange reads): with `halted` set, the loop ends with exit kind
`exitk` (an exception, possibly after a notice reply); with `needNext` set
(`PASS` while unauthenticated), the loop must synchronously read the next
line (`next(line_iter)`); otherwise the loop continues with the recorded
session nickname, registry, replies and deliveries. -/
structure StepOut where
  needNext : Bool
  halted : Bool
  exitk : ExitKind
  nick : Option String
  reg : Registry
  replies : List String
  deliveries : List (Conn × String)
deriving DecidableEq

/-- The outcome of the `NICK` line read inside the `PASS` branch. -/
structure NickOut where
  ok : Bool
  n : String
  reg : Registry
  replies : List String
deriving DecidableEq

/-- The body of `TwitchIRCRepeater.listener`'s loop for a single line
`line` (all of it except the synchronous `next(line_iter)` read, which
`stepNick` handles): dispatch on the line's first characters exactly as the
code's `if line.startswith(":")` / `match` does.  The `exitk` field is
meaningful only when `halted`; `.eof` is stored as a placeholder otherwise. -/
def stepLine (broken : List Conn) (me : Conn) (a : Addr) (nick : Option String)
    (reg : Registry) (line : String) : StepOut :=
  if pyStartsWith ":" line then
    -- the other side is a message bridge, trying to forward a message
    match (pySplitMax3 line).map pyStrip with
    | [_, p1, p2, _] =>
      if p1 = "PRIVMSG" then
        if pyStartsWith "#" p2 then
          -- assert passed; an exception out of repeat_message aborts the loop
          match repeat_message broken reg p2 line with
          | (d, none) => ⟨false, false, .eof, nick, reg, [], d⟩
          | (d, some _) => ⟨false, true, .broadcastErr, nick, reg, [], d⟩
        else ⟨false, true, .assertFail, nick, reg, [], []⟩
      else ⟨false, false, .eof, nick, reg, [], []⟩
    | _ => ⟨false, false, .eof, nick, reg, [], []⟩
  else if pyStartsWith "PASS" line then
    -- trying to authenticate
    match nick with
    | some n => ⟨false, true, .dropClient, some n, reg, [MSG_AUTH_FAIL], []⟩
    | none => ⟨true, false, .eof, none, reg, [], []⟩
  else if pyStartsWith "JOIN" line then
    -- trying to join a channel
    match nick with
    | none => ⟨false, true, .dropClient, none, reg, [], []⟩
    | some n =>
      match pySplitAll line with
      | [k, chs] =>
        if k = "JOIN" then
          let jr := joinAll me a n reg ((pySplitComma chs).map pyStrip)
          ⟨false, false, .eof, some n, jr.1, jr.2, []⟩
        else ⟨false, true, .dropClient, some n, reg, [], []⟩
      | _ => ⟨false, true, .dropClient, some n, reg, [], []⟩
  else ⟨false, false, .eof, nick, reg, [], []⟩

/-- The `nick_line = next(line_iter).split()` exchange of the `PASS`
branch: a well-formed `NICK <n>` authenticates (welcome banner, implicit
subscription to `#<n>`); anything else earns the improperly-formatted-auth
notice and `DropClient`. -/
def stepNick (me : Conn) (a : Addr) (reg : Registry) (nline : String) : NickOut :=
  match pySplitAll nline with
  | [k, n] =>
    if k = "NICK" then
      ⟨true, n, subscribe_channel reg me a ("#" ++ n), [MSG_AUTH_SUCC n]⟩
    else ⟨false, "", reg, [MSG_AUTH_INCORRECT_ORDER]⟩
  | _ => ⟨false, "", reg, [MSG_AUTH_INCORRECT_ORDER]⟩

/-- The `for line in line_iter:` loop of `TwitchIRCRepeater.listener`,
processing the connection's inbound lines (each as decoded by the reader,
terminator included).  `me` is the handled connection, `a` its address, the
next argument the current `nickname`, then the shared registry and the
remaining inbound lines.  The one-line and two-or-more-line cases are split
so the `PASS` branch's synchronous second read (`stepNick`) can consume the
following line; both dispatch through `stepLine` identically.  Replies to
`me` are modelled as always succeeding; a reply-write failure would raise
and is subsumed by the catch-all teardown every exceptional exit models. -/
def processLines (broken : List Conn) (me : Conn) (a : Addr) :
    Option String → Registry → List String → HandlerOut
  | nick, reg, [] => ⟨[], [], reg, nick, .eof, false⟩
  | nick, reg, [line] =>
    let s := stepLine broken me a nick reg line
    if s.needNext then ⟨[], [], s.reg, s.nick, .stopIteration, false⟩
    else if s.halted then ⟨s.replies, s.deliveries, s.reg, s.nick, s.exitk, false⟩
    else
      let o := processLines broken me a s.nick s.reg []
      ⟨s.replies ++ o.replies, s.deliveries ++ o.deliveries, o.reg, o.nickname,
        o.exitk, o.closed⟩
  | nick, reg, line :: nline :: rest2 =>
    let s := stepLine broken me a nick reg line
    if s.needNext then
      let nr := stepNick me a s.reg nline
      if nr.ok then
        let o := processLines broken me a (some nr.n) nr.reg rest2
        ⟨nr.replies ++ o.replies, o.deliveries, o.reg, o.nickname, o.exitk, o.closed⟩
      else ⟨nr.replies, [], s.reg, s.nick, .dropClient, false⟩
    else if s.halted then ⟨s.replies, s.deliveries, s.reg, s.nick, s.exitk, false⟩
    else
      let o := processLines broken me a s.nick s.reg (nline :: rest2)
      ⟨s.replies ++ o.replies, s.deliveries ++ o.deliveries, o.reg, o.nickname,
        o.exitk, o.closed⟩

/-- `TwitchIRCRepeater.listener` end to end: run the loop, then the
`finally` block — `remove_subscriber` on the handled connection and closing
its stream — regardless of how the loop ended. -/
def listener (broken : List Conn) (me : Conn) (a : Addr) (reg : Registry)
    (lines : List String) : HandlerOut :=
  let o := processLines broken me a none reg lines
  { o with reg := remove_subscriber o.reg me, closed := true }

/-- The registry invariant maintained by `subscribe_channel` and
`remove_subscriber`: the two directional mappings are mutual inverses, no
channel entry holds an empty subscriber set, both kinds of sets are
duplicate-free (Python `set` semantics), and every subscribed connection
has a recorded address. -/
structure RegInv (r : Registry) : Prop where
  inverse : ∀ ch c, c ∈ chanSubs r ch ↔ ch ∈ connChans r c
  noEmptyChan : ∀ ch cs, alook ch r.channel_clients = some cs → cs ≠ []
  subsNodup : ∀ ch, (chanSubs r ch).Nodup
  chansNodup : ∀ c, (connChans r c).Nodup
  addrPresent : ∀ c ch, c ∈ chanSubs r ch → (alook c r.client_addr).isSome = true

/-- One registry operation: the two mutators the handlers invoke
(`subscribe_channel` with a connection, address and channel, or
`remove_subscriber`, the code's `unsubscribe_all`). -/
inductive RegOp where
  | sub (c : Conn) (a : Addr) (ch : String)
  | unsubAll (c : Conn)
deriving DecidableEq

/-- Apply one registry operation. -/
def applyRegOp (r : Registry) : RegOp → Registry
  | .sub c a ch => subscribe_channel r c a ch
  | .unsubAll c => remove_subscriber r c

/-- Run a sequence of registry operations from the server's initial state. -/
def applyRegOps (ops : List RegOp) : Registry := ops.foldl applyRegOp emptyRegistry

theorem alook_aput_self {α β : Type} [DecidableEq α] (k : α) (v : β) (m : List (α × β)) :
    alook k (aput k v m) = some v := by
  induction m with
  | nil => simp [aput, alook]
  | cons e rest ih =>
    by_cases h : k = e.1
    · simp [aput, alook, h]
    · simpa [aput, alook, h] using ih

theorem alook_aput_ne {α β : Type} [DecidableEq α] {k k' : α} (v : β) (m : List (α × β))
    (h : k' ≠ k) : alook k' (aput k v m) = alook k' m := by
  induction m with
  | nil => simp [aput, alook, h]
  | cons e rest ih =>
    by_cases h2 : k = e.1
    · subst h2; simp [aput, alook, h]
    · by_cases h3 : k' = e.1 <;> simp [aput, alook, h2, h3, ih]

theorem alook_adel_self {α β : Type} [DecidableEq α] (k : α) (m : List (α × β)) :
    alook k (adel k m) = none := by
  induction m with
  | nil => simp [adel, alook]
  | cons e rest ih =>
    by_cases h : e.1 = k
    · simpa [adel, h] using ih
    · have hne : ¬ k = e.1 := fun hk => h hk.symm
      rw [adel, if_neg h, alook, if_neg hne]
      exact ih

theorem alook_adel_ne {α β : Type} [DecidableEq α] {k k' : α} (m : List (α × β))
    (h : k' ≠ k) : alook k' (adel k m) = alook k' m := by
  induction m with
  | nil => simp [adel, alook]
  | cons e rest ih =>
    by_cases h2 : e.1 = k
    · rw [adel, if_pos h2, ih, alook]
      have : ¬ k' = e.1 := by rw [h2]; exact h
      rw [if_neg this]
    · by_cases h3 : k' = e.1 <;> simp [adel, alook, h2, h3, ih]

theorem mem_setAdd {α : Type} [DecidableEq α] {x y : α} {s : List α} :
    x ∈ setAdd y s ↔ x = y ∨ x ∈ s := by
  unfold setAdd
  by_cases h : y ∈ s
  · simp only [if_pos h]
    constructor
    · exact Or.inr
    · rintro (rfl | hx) <;> assumption
  · simp [if_neg h]

theorem setAdd_ne_nil {α : Type} [DecidableEq α] (y : α) (s : List α) : setAdd y s ≠ [] := by
  unfold setAdd
  by_cases h : y ∈ s
  · simp only [if_pos h]
    rintro rfl
    exact absurd h (List.not_mem_nil y)
  · simp [if_neg h]

theorem setAdd_nodup {α : Type} [DecidableEq α] {y : α} {s : List α} (h : s.Nodup) :
    (setAdd y s).Nodup := by
  unfold setAdd
  by_cases hm : y ∈ s
  · rw [if_pos hm]
    exact h
  · rw [if_neg hm]
    exact List.nodup_cons.mpr ⟨hm, h⟩

theorem mem_setRemove {α : Type} [DecidableEq α] {x y : α} {s : List α} :
    x ∈ setRemove y s ↔ x ∈ s ∧ x ≠ y := by
  induction s with
  | nil => simp [setRemove]
  | cons z rest ih =>
    by_cases h2 : z = y
    · rw [setRemove, if_pos h2, ih]
      simp only [List.mem_cons]
      constructor
      · rintro ⟨h1, h3⟩
        exact ⟨Or.inr h1, h3⟩
      · rintro ⟨h1 | h1, h3⟩
        · rw [h1, h2] at h3
          exact absurd rfl h3
        · exact ⟨h1, h3⟩
    · rw [setRemove, if_neg h2]
      simp only [List.mem_cons, ih]
      constructor
      · rintro (rfl | ⟨h1, h3⟩)
        · exact ⟨Or.inl rfl, h2⟩
        · exact ⟨Or.inr h1, h3⟩
      · rintro ⟨rfl | h1, h3⟩
        · exact Or.inl rfl
        · exact Or.inr ⟨h1, h3⟩

theorem setRemove_nodup {α : Type} [DecidableEq α] (y : α) {s : List α} (h : s.Nodup) :
    (setRemove y s).Nodup := by
  induction s with
  | nil => simp [setRemove]
  | cons z rest ih =>
    rw [List.nodup_cons] at h
    by_cases h2 : z = y
    · simpa [setRemove, h2] using ih h.2
    · rw [setRemove, if_neg h2, List.nodup_cons]
      exact ⟨fun hm => h.1 (mem_setRemove.mp hm).1, ih h.2⟩

theorem RegInv_empty : RegInv emptyRegistry := by
  refine ⟨?_, ?_, ?_, ?_, ?_⟩ <;>
    simp [chanSubs, connChans, emptyRegistry, alook]

theorem chanSubs_subscribe (r : Registry) (c : Conn) (a : Addr) (ch ch' : String) :
    chanSubs (subscribe_channel r c a ch) ch' =
      if ch' = ch then setAdd c (chanSubs r ch) else chanSubs r ch' := by
  by_cases h : ch' = ch
  · subst h; simp [chanSubs, subscribe_channel, alook_aput_self]
  · simp [chanSubs, subscribe_channel, alook_aput_ne _ _ h, h]

theorem connChans_subscribe (r : Registry) (c : Conn) (a : Addr) (ch : String) (c' : Conn) :
    connChans (subscribe_channel r c a ch) c' =
      if c' = c then setAdd ch (connChans r c) else connChans r c' := by
  by_cases h : c' = c
  · subst h; simp [connChans, subscribe_channel, alook_aput_self]
  · simp [connChans, subscribe_channel, alook_aput_ne _ _ h, h]

theorem RegInv_subscribe {r : Registry} (hInv : RegInv r) (c : Conn) (a : Addr) (ch : String) :
    RegInv (subscribe_channel r c a ch) := by
  constructor
  · intro ch' c'
    rw [chanSubs_subscribe, connChans_subscribe]
    by_cases h1 : ch' = ch <;> by_cases h2 : c' = c <;>
      simp [h1, h2, mem_setAdd, hInv.inverse]
  · intro ch' cs h
    rw [show (subscribe_channel r c a ch).channel_clients
          = aput ch (setAdd c (chanSubs r ch)) r.channel_clients from rfl] at h
    by_cases h1 : ch' = ch
    · rw [h1, alook_aput_self] at h
      cases h
      exact setAdd_ne_nil _ _
    · rw [alook_aput_ne _ _ h1] at h
      exact hInv.noEmptyChan ch' cs h
  · intro ch'
    rw [chanSubs_subscribe]
    by_cases h1 : ch' = ch <;> simp [h1, setAdd_nodup, hInv.subsNodup]
  · intro c'
    rw [connChans_subscribe]
    by_cases h2 : c' = c <;> simp [h2, setAdd_nodup, hInv.chansNodup]
  · intro c' ch' hmem
    rw [chanSubs_subscribe] at hmem
    rw [show (subscribe_channel r c a ch).client_addr = aput c a r.client_addr from rfl]
    by_cases h2 : c' = c
    · rw [h2, alook_aput_self]
      rfl
    · rw [alook_aput_ne _ _ h2]
      by_cases h1 : ch' = ch
      · rw [if_pos h1] at hmem
        rcases mem_setAdd.mp hmem with h | h
        · exact absurd h h2
        · exact hInv.addrPresent c' ch h
      · rw [if_neg h1] at hmem
        exact hInv.addrPresent c' ch' hmem

theorem remove_subscriber_absent {r : Registry} {c : Conn}
    (h : alook c r.client_channels = none) : remove_subscriber r c = r := by
  unfold remove_subscriber
  rw [h]

theorem remove_subscriber_eq {r : Registry} {c : Conn} {chans : List String}
    (h : alook c r.client_channels = some chans) :
    remove_subscriber r c =
      { channel_clients := chans.foldl (removeFromChannel c) r.channel_clients
        client_channels := adel c r.client_channels
        client_addr := adel c r.client_addr } := by
  unfold remove_subscriber
  rw [h]

theorem alook_removeFromChannel_self (c : Conn) (m : List (String × List Conn)) (ch : String) :
    alook ch (removeFromChannel c m ch) =
      (if setRemove c ((alook ch m).getD []) = [] then none
       else some (setRemove c ((alook ch m).getD []))) := by
  unfold removeFromChannel
  by_cases h : setRemove c ((alook ch m).getD []) = []
  · rw [if_pos h, if_pos h, alook_adel_self]
  · rw [if_neg h, if_neg h, alook_aput_self]

theorem alook_removeFromChannel_ne (c : Conn) (m : List (String × List Conn))
    {ch ch' : String} (h : ch' ≠ ch) :
    alook ch' (removeFromChannel c m ch) = alook ch' m := by
  unfold removeFromChannel
  by_cases h2 : setRemove c ((alook ch m).getD []) = []
  · rw [if_pos h2, alook_adel_ne _ h]
  · rw [if_neg h2, alook_aput_ne _ _ h]

theorem alook_foldl_remove (c : Conn) (chans : List String)
    (m : List (String × List Conn)) (hnd : chans.Nodup) (ch : String) :
    alook ch (chans.foldl (removeFromChannel c) m) =
      if ch ∈ chans then
        (if setRemove c ((alook ch m).getD []) = [] then none
         else some (setRemove c ((alook ch m).getD [])))
      else alook ch m := by
  induction chans generalizing m with
  | nil => simp
  | cons ch0 rest ih =>
    rw [List.foldl_cons, List.nodup_cons] at *
    by_cases h : ch = ch0
    · have hnotin : ch ∉ rest := h ▸ hnd.1
      rw [ih _ hnd.2, if_neg hnotin, h, alook_removeFromChannel_self,
          if_pos (List.mem_cons_self ch0 rest)]
    · rw [ih _ hnd.2]
      by_cases h2 : ch ∈ rest
      · rw [if_pos h2, if_pos (List.mem_cons_of_mem _ h2),
            alook_removeFromChannel_ne _ _ h]
      · have : ch ∉ ch0 :: rest := by
          intro hm
          rcases List.mem_cons.mp hm with hm | hm
          · exact h hm
          · exact h2 hm
        rw [if_neg h2, if_neg this, alook_removeFromChannel_ne _ _ h]

theorem chanSubs_remove {r : Registry} {c : Conn} {chans : List String}
    (h : alook c r.client_channels = some chans) (hnd : chans.Nodup) (ch : String) :
    chanSubs (remove_subscriber r c) ch =
      if ch ∈ chans then setRemove c (chanSubs r ch) else chanSubs r ch := by
  rw [remove_subscriber_eq h]
  unfold chanSubs
  rw [show ({ channel_clients := chans.foldl (removeFromChannel c) r.channel_clients,
              client_channels := adel c r.client_channels,
              client_addr := adel c r.client_addr } : Registry).channel_clients
        = chans.foldl (removeFromChannel c) r.channel_clients from rfl]
  rw [alook_foldl_remove c chans _ hnd ch]
  by_cases h2 : ch ∈ chans
  · rw [if_pos h2, if_pos h2]
    by_cases h3 : setRemove c ((alook ch r.channel_clients).getD []) = []
    · rw [if_pos h3, h3]
      rfl
    · rw [if_neg h3]
      rfl
  · rw [if_neg h2, if_neg h2]

theorem connChans_remove (r : Registry) (c c' : Conn) :
    connChans (remove_subscriber r c) c' = if c' = c then [] else connChans r c' := by
  cases h : alook c r.client_channels with
  | none =>
    rw [remove_subscriber_absent h]
    by_cases h2 : c' = c
    · rw [if_pos h2, h2]
      unfold connChans
      rw [h]
      rfl
    · rw [if_neg h2]
  | some chans =>
    rw [remove_subscriber_eq h]
    unfold connChans
    by_cases h2 : c' = c
    · rw [if_pos h2, h2,
          show ({ channel_clients := chans.foldl (removeFromChannel c) r.channel_clients,
                  client_channels := adel c r.client_channels,
                  client_addr := adel c r.client_addr } : Registry).client_channels
            = adel c r.client_channels from rfl,
          alook_adel_self]
      rfl
    · rw [if_neg h2,
          show ({ channel_clients := chans.foldl (removeFromChannel c) r.channel_clients,
                  client_channels := adel c r.client_channels,
                  client_addr := adel c r.client_addr } : Registry).client_channels
            = adel c r.client_channels from rfl,
          alook_adel_ne _ h2]

theorem RegInv_remove {r : Registry} (hInv : RegInv r) (c : Conn) :
    RegInv (remove_subscriber r c) := by
  cases h : alook c r.client_channels with
  | none =>
    rw [remove_subscriber_absent h]
    exact hInv
  | some chans =>
    have hchans : connChans r c = chans := by
      unfold connChans
      rw [h]
      rfl
    have hnd : chans.Nodup := hchans ▸ hInv.chansNodup c
    constructor
    · intro ch c'
      rw [chanSubs_remove h hnd ch, connChans_remove r c c']
      by_cases h2 : c' = c
      · rw [if_pos h2]
        simp only [List.not_mem_nil, iff_false]
        by_cases h3 : ch ∈ chans
        · rw [if_pos h3]
          intro hm
          exact (mem_setRemove.mp hm).2 h2
        · rw [if_neg h3]
          intro hm
          exact h3 (hchans ▸ (hInv.inverse ch c).mp (h2 ▸ hm))
      · rw [if_neg h2]
        by_cases h3 : ch ∈ chans
        · rw [if_pos h3, mem_setRemove]
          constructor
          · rintro ⟨hm, _⟩
            exact (hInv.inverse ch c').mp hm
          · intro hm
            exact ⟨(hInv.inverse ch c').mpr hm, h2⟩
        · rw [if_neg h3]
          exact hInv.inverse ch c'
    · intro ch cs hl
      rw [remove_subscriber_eq h,
          show ({ channel_clients := chans.foldl (removeFromChannel c) r.channel_clients,
                  client_channels := adel c r.client_channels,
                  client_addr := adel c r.client_addr } : Registry).channel_clients
            = chans.foldl (removeFromChannel c) r.channel_clients from rfl,
          alook_foldl_remove c chans _ hnd ch] at hl
      by_cases h2 : ch ∈ chans
      · rw [if_pos h2] at hl
        by_cases h3 : setRemove c ((alook ch r.channel_clients).getD []) = []
        · rw [if_pos h3] at hl
          cases hl
        · rw [if_neg h3] at hl
          cases hl
          exact h3
      · rw [if_neg h2] at hl
        exact hInv.noEmptyChan ch cs hl
    · intro ch
      rw [chanSubs_remove h hnd ch]
      by_cases h3 : ch ∈ chans
      · rw [if_pos h3]
        exact setRemove_nodup _ (hInv.subsNodup ch)
      · rw [if_neg h3]
        exact hInv.subsNodup ch
    · intro c'
      rw [connChans_remove r c c']
      by_cases h2 : c' = c
      · rw [if_pos h2]
        exact List.nodup_nil
      · rw [if_neg h2]
        exact hInv.chansNodup c'
    · intro c' ch hm
      rw [chanSubs_remove h hnd ch] at hm
      have hne : c' ≠ c := by
        by_cases h3 : ch ∈ chans
        · rw [if_pos h3] at hm
          exact (mem_setRemove.mp hm).2
        · rw [if_neg h3] at hm
          intro heq
          exact h3 (hchans ▸ (hInv.inverse ch c).mp (heq ▸ hm))
      have hmem : c' ∈ chanSubs r ch := by
        by_cases h3 : ch ∈ chans
        · rw [if_pos h3] at hm
          exact (mem_setRemove.mp hm).1
        · rw [if_neg h3] at hm
          exact hm
      rw [remove_subscriber_eq h,
          show ({ channel_clients := chans.foldl (removeFromChannel c) r.channel_clients,
                  client_channels := adel c r.client_channels,
                  client_addr := adel c r.client_addr } : Registry).client_addr
            = adel c r.client_addr from rfl,
          alook_adel_ne _ hne]
      exact hInv.addrPresent c' ch hmem

/-- The cleanup `remove_subscriber` performs for a departing connection:
it is left in no channel's subscriber set, and every channel of which it
was the sole subscriber disappears from the registry entirely. -/
theorem remove_cleanup {r : Registry} (hInv : RegInv r) (c : Conn) :
    (∀ ch, c ∉ chanSubs (remove_subscriber r c) ch) ∧
    (∀ ch, alook ch r.channel_clients = some [c] →
      alook ch (remove_subscriber r c).channel_clients = none) := by
  cases h : alook c r.client_channels with
  | none =>
    have hempty : connChans r c = [] := by
      unfold connChans
      rw [h]
      rfl
    rw [remove_subscriber_absent h]
    constructor
    · intro ch hm
      have := (hInv.inverse ch c).mp hm
      rw [hempty] at this
      exact absurd this (List.not_mem_nil ch)
    · intro ch hl
      have hm : c ∈ chanSubs r ch := by
        unfold chanSubs
        rw [hl]
        exact List.mem_cons_self c []
      have := (hInv.inverse ch c).mp hm
      rw [hempty] at this
      exact absurd this (List.not_mem_nil ch)
  | some chans =>
    have hchans : connChans r c = chans := by
      unfold connChans
      rw [h]
      rfl
    have hnd : chans.Nodup := hchans ▸ hInv.chansNodup c
    constructor
    · intro ch hm
      rw [chanSubs_remove h hnd ch] at hm
      by_cases h3 : ch ∈ chans
      · rw [if_pos h3] at hm
        exact (mem_setRemove.mp hm).2 rfl
      · rw [if_neg h3] at hm
        exact h3 (hchans ▸ (hInv.inverse ch c).mp hm)
    · intro ch hl
      have hm : c ∈ chanSubs r ch := by
        unfold chanSubs
        rw [hl]
        exact List.mem_cons_self c []
      have hin : ch ∈ chans := hchans ▸ (hInv.inverse ch c).mp hm
      rw [remove_subscriber_eq h,
          show ({ channel_clients := chans.foldl (removeFromChannel c) r.channel_clients,
                  client_channels := adel c r.client_channels,
                  client_addr := adel c r.client_addr } : Registry).channel_clients
            = chans.foldl (removeFromChannel c) r.channel_clients from rfl,
          alook_foldl_remove c chans _ hnd ch, if_pos hin, hl]
      rw [show (some [c]).getD [] = [c] from rfl]
      rw [if_pos (by rw [setRemove, if_pos rfl]; rfl)]

theorem RegInv_foldl (ops : List RegOp) {r : Registry} (hInv : RegInv r) :
    RegInv (ops.foldl applyRegOp r) := by
  induction ops generalizing r with
  | nil => exact hInv
  | cons op rest ih =>
    rw [List.foldl_cons]
    refine ih ?_
    cases op with
    | sub c a ch => exact RegInv_subscribe hInv c a ch
    | unsubAll c => exact RegInv_remove hInv c

theorem RegInv_applyRegOps (ops : List RegOp) : RegInv (applyRegOps ops) :=
  RegInv_foldl ops RegInv_empty

theorem pass_not_colon {s : String} (h : pyStartsWith "PASS" s = true) :
    pyStartsWith ":" s = false := by
  unfold pyStartsWith at h ⊢
  cases hd : s.data with
  | nil =>
    rw [hd] at h
    simp [List.isPrefixOf] at h
  | cons b bs =>
    rw [hd] at h
    simp only [show ("PASS" : String).data = ['P', 'A', 'S', 'S'] from rfl,
      List.isPrefixOf, Bool.and_eq_true, beq_iff_eq] at h
    rcases h with ⟨h1, -⟩
    rw [show (":" : String).data = [':'] from rfl]
    rw [← h1]
    simp [List.isPrefixOf]

theorem join_not_colon {s : String} (h : pyStartsWith "JOIN" s = true) :
    pyStartsWith ":" s = false := by
  unfold pyStartsWith at h ⊢
  cases hd : s.data with
  | nil =>
    rw [hd] at h
    simp [List.isPrefixOf] at h
  | cons b bs =>
    rw [hd] at h
    simp only [show ("JOIN" : String).data = ['J', 'O', 'I', 'N'] from rfl,
      List.isPrefixOf, Bool.and_eq_true, beq_iff_eq] at h
    rcases h with ⟨h1, -⟩
    rw [show (":" : String).data = [':'] from rfl]
    rw [← h1]
    simp [List.isPrefixOf]

theorem join_not_pass {s : String} (h : pyStartsWith "JOIN" s = true) :
    pyStartsWith "PASS" s = false := by
  unfold pyStartsWith at h ⊢
  cases hd : s.data with
  | nil =>
    rw [hd] at h
    simp [List.isPrefixOf] at h
  | cons b bs =>
    rw [hd] at h
    simp only [show ("JOIN" : String).data = ['J', 'O', 'I', 'N'] from rfl,
      List.isPrefixOf, Bool.and_eq_true, beq_iff_eq] at h
    rcases h with ⟨h1, -⟩
    rw [show ("PASS" : String).data = ['P', 'A', 'S', 'S'] from rfl]
    rw [← h1]
    simp [List.isPrefixOf]

theorem processLines_nil (broken : List Conn) (me : Conn) (a : Addr)
    (nick : Option String) (reg : Registry) :
    processLines broken me a nick reg [] = ⟨[], [], reg, nick, .eof, false⟩ := rfl

/-- A line that is neither a bridge line nor `PASS` nor `JOIN` is silently
skipped: no reply, no state change, no registry change, no termination. -/
theorem processLines_skip {line : String} (broken : List Conn) (me : Conn) (a : Addr)
    (nick : Option String) (reg : Registry) (rest : List String)
    (h1 : pyStartsWith ":" line = false)
    (h2 : pyStartsWith "PASS" line = false)
    (h3 : pyStartsWith "JOIN" line = false) :
    processLines broken me a nick reg (line :: rest)
      = processLines broken me a nick reg rest := by
  have hs : stepLine broken me a nick reg line
      = ⟨false, false, .eof, nick, reg, [], []⟩ := by
    simp [stepLine, h1, h2, h3]
  cases rest with
  | nil => simp [processLines, hs]
  | cons nline rest2 => simp [processLines, hs]

/-- A second `PASS` on an authenticated connection: auth-failure notice,
then `DropClient`. -/
theorem processLines_pass_again {line : String} (broken : List Conn) (me : Conn) (a : Addr)
    (n : String) (reg : Registry) (rest : List String)
    (h1 : pyStartsWith "PASS" line = true) :
    processLines broken me a (some n) reg (line :: rest)
      = ⟨[MSG_AUTH_FAIL], [], reg, some n, .dropClient, false⟩ := by
  have hs : stepLine broken me a (some n) reg line
      = ⟨false, true, .dropClient, some n, reg, [MSG_AUTH_FAIL], []⟩ := by
    simp [stepLine, pass_not_colon h1, h1]
  cases rest with
  | nil => simp [processLines, hs]
  | cons nline rest2 => simp [processLines, hs]

/-- `PASS` as the last line of the stream: `next(line_iter)` raises
`StopIteration` before any reply is written. -/
theorem processLines_pass_eof {line : String} (broken : List Conn) (me : Conn) (a : Addr)
    (reg : Registry) (h1 : pyStartsWith "PASS" line = true) :
    processLines broken me a none reg [line]
      = ⟨[], [], reg, none, .stopIteration, false⟩ := by
  have hs : stepLine broken me a none reg line
      = ⟨true, false, .eof, none, reg, [], []⟩ := by
    simp [stepLine, pass_not_colon h1, h1]
  simp [processLines, hs]

/-- `PASS` followed by a well-formed `NICK <n>` line: send the welcome
banner, record the nickname, subscribe to `#<n>`, and continue. -/
theorem processLines_pass_nick {line nline n : String} (broken : List Conn) (me : Conn)
    (a : Addr) (reg : Registry) (rest : List String)
    (h1 : pyStartsWith "PASS" line = true)
    (hg : pySplitAll nline = ["NICK", n]) :
    processLines broken me a none reg (line :: nline :: rest)
      = { processLines broken me a (some n)
            (subscribe_channel reg me a ("#" ++ n)) rest with
          replies := MSG_AUTH_SUCC n ::
            (processLines broken me a (some n)
              (subscribe_channel reg me a ("#" ++ n)) rest).replies } := by
  have hs : stepLine broken me a none reg line
      = ⟨true, false, .eof, none, reg, [], []⟩ := by
    simp [stepLine, pass_not_colon h1, h1]
  have hn : stepNick me a reg nline
      = ⟨true, n, subscribe_channel reg me a ("#" ++ n), [MSG_AUTH_SUCC n]⟩ := by
    simp [stepNick, hg]
  simp [processLines, hs, hn]

/-- `PASS` followed by a line that is not a well-formed `NICK <n>`:
the improperly-formatted-auth notice, then `DropClient`. -/
theorem processLines_pass_bad {line nline : String} (broken : List Conn) (me : Conn)
    (a : Addr) (reg : Registry) (rest : List String)
    (h1 : pyStartsWith "PASS" line = true)
    (hb : nickLineOk (pySplitAll nline) = false) :
    processLines broken me a none reg (line :: nline :: rest)
      = ⟨[MSG_AUTH_INCORRECT_ORDER], [], reg, none, .dropClient, false⟩ := by
  have hs : stepLine broken me a none reg line
      = ⟨true, false, .eof, none, reg, [], []⟩ := by
    simp [stepLine, pass_not_colon h1, h1]
  have hn : stepNick me a reg nline = ⟨false, "", reg, [MSG_AUTH_INCORRECT_ORDER]⟩ := by
    match htoks : pySplitAll nline with
    | [] => simp [stepNick, htoks]
    | [k] => simp [stepNick, htoks]
    | [k, x] =>
      rw [htoks] at hb
      unfold nickLineOk at hb
      have hk : ¬ k = "NICK" := by
        intro hkeq
        rw [hkeq] at hb
        simp at hb
      simp [stepNick, htoks, hk]
    | k :: x :: y :: more => simp [stepNick, htoks]
  simp [processLines, hs, hn]

theorem deliverAll_clean (broken : List Conn) (addrs : List (Conn × Addr)) (msg : String) :
    ∀ cs : List Conn, (∀ c ∈ cs, c ∉ broken ∧ (alook c addrs).isSome = true) →
      deliverAll broken addrs msg cs = (cs.map (fun c => (c, msg ++ "\n")), none) := by
  intro cs
  induction cs with
  | nil => intro _; rfl
  | cons c rest ih =>
    intro h
    obtain ⟨hb, ha⟩ := h c (List.mem_cons_self c rest)
    obtain ⟨v, hv⟩ := Option.isSome_iff_exists.mp ha
    rw [deliverAll, if_neg hb, hv]
    rw [ih (fun x hx => h x (List.mem_cons_of_mem c hx))]
    rfl

theorem deliverAll_broken (broken : List Conn) (addrs : List (Conn × Addr)) (msg : String)
    (b : Conn) (hb : b ∈ broken) :
    ∀ (pre post : List Conn), (∀ c ∈ pre, c ∉ broken ∧ (alook c addrs).isSome = true) →
      deliverAll broken addrs msg (pre ++ b :: post)
        = (pre.map (fun c => (c, msg ++ "\n")), some (.writeError b)) := by
  intro pre
  induction pre with
  | nil =>
    intro post _
    rw [List.nil_append, deliverAll, if_pos hb]
    rfl
  | cons c rest ih =>
    intro post h
    obtain ⟨hcb, ha⟩ := h c (List.mem_cons_self c rest)
    obtain ⟨v, hv⟩ := Option.isSome_iff_exists.mp ha
    rw [List.cons_append, deliverAll, if_neg hcb, hv,
        ih post (fun x hx => h x (List.mem_cons_of_mem c hx))]
    rfl

/-- Under the registry invariant and with no broken subscriber streams,
`repeat_message` delivers the message (with `print`'s appended terminator)
to exactly the channel's subscriber list and raises nothing. -/
theorem repeat_message_clean {r : Registry} (hInv : RegInv r) {ch : String}
    {cs : List Conn} (hsubs : alook ch r.channel_clients = some cs) (msg : String) :
    repeat_message [] r ch msg = (cs.map (fun c => (c, msg ++ "\n")), none) := by
  unfold repeat_message
  rw [hsubs]
  refine deliverAll_clean [] r.client_addr msg cs fun c hc => ⟨List.not_mem_nil c, ?_⟩
  refine hInv.addrPresent c ch ?_
  unfold chanSubs
  rw [hsubs]
  exact hc

theorem stepLine_bridge_ok {line ch : String} (broken : List Conn) (me : Conn) (a : Addr)
    (nick : Option String) (reg : Registry) {p0 p3 : String}
    (hc : pyStartsWith ":" line = true)
    (hparse : (pySplitMax3 line).map pyStrip = [p0, "PRIVMSG", ch, p3])
    (hch : pyStartsWith "#" ch = true)
    {d : List (Conn × String)}
    (hrep : repeat_message broken reg ch line = (d, none)) :
    stepLine broken me a nick reg line = ⟨false, false, .eof, nick, reg, [], d⟩ := by
  simp [stepLine, hc, hparse, hch, hrep]

theorem stepLine_bridge_err {line ch : String} (broken : List Conn) (me : Conn) (a : Addr)
    (nick : Option String) (reg : Registry) {p0 p3 : String}
    (hc : pyStartsWith ":" line = true)
    (hparse : (pySplitMax3 line).map pyStrip = [p0, "PRIVMSG", ch, p3])
    (hch : pyStartsWith "#" ch = true)
    {d : List (Conn × String)} {e : BroadcastErr}
    (hrep : repeat_message broken reg ch line = (d, some e)) :
    stepLine broken me a nick reg line = ⟨false, true, .broadcastErr, nick, reg, [], d⟩ := by
  simp [stepLine, hc, hparse, hch, hrep]

theorem stepLine_bridge_assert {line ch : String} (broken : List Conn) (me : Conn) (a : Addr)
    (nick : Option String) (reg : Registry) {p0 p3 : String}
    (hc : pyStartsWith ":" line = true)
    (hparse : (pySplitMax3 line).map pyStrip = [p0, "PRIVMSG", ch, p3])
    (hch : pyStartsWith "#" ch = false) :
    stepLine broken me a nick reg line = ⟨false, true, .assertFail, nick, reg, [], []⟩ := by
  simp [stepLine, hc, hparse, hch]

/-- A `:`-prefixed line that does not split into exactly four fields is
silently ignored: the loop continues with nothing changed. -/
theorem stepLine_bridge_shape {line : String} (broken : List Conn) (me : Conn) (a : Addr)
    (nick : Option String) (reg : Registry)
    (hc : pyStartsWith ":" line = true)
    (hshape : ((pySplitMax3 line).map pyStrip).length ≠ 4) :
    stepLine broken me a nick reg line = ⟨false, false, .eof, nick, reg, [], []⟩ := by
  match hp : (pySplitMax3 line).map pyStrip with
  | [] => simp [stepLine, hc, hp]
  | [x0] => simp [stepLine, hc, hp]
  | [x0, x1] => simp [stepLine, hc, hp]
  | [x0, x1, x2] => simp [stepLine, hc, hp]
  | [x0, x1, x2, x3] =>
    rw [hp] at hshape
    simp at hshape
  | x0 :: x1 :: x2 :: x3 :: x4 :: more => simp [stepLine, hc, hp]

/-- A `:`-prefixed four-field line whose second field is not `PRIVMSG` is
silently ignored. -/
theorem stepLine_bridge_notpriv {line : String} (broken : List Conn) (me : Conn) (a : Addr)
    (nick : Option String) (reg : Registry) {p0 p1 p2 p3 : String}
    (hc : pyStartsWith ":" line = true)
    (hparse : (pySplitMax3 line).map pyStrip = [p0, p1, p2, p3])
    (hp1 : p1 ≠ "PRIVMSG") :
    stepLine broken me a nick reg line = ⟨false, false, .eof, nick, reg, [], []⟩ := by
  simp [stepLine, hc, hparse, hp1]

theorem RegInv_joinAll (me : Conn) (a : Addr) (n : String) :
    ∀ (channels : List String) (reg : Registry), RegInv reg →
      RegInv (joinAll me a n reg channels).1 := by
  intro channels
  induction channels with
  | nil =>
    intro reg h
    exact h
  | cons ch rest ih =>
    intro reg h
    simp only [joinAll]
    exact ih _ (RegInv_subscribe h me a ch)

theorem RegInv_stepLine (broken : List Conn) (me : Conn) (a : Addr) (nick : Option String)
    (reg : Registry) (line : String) (h : RegInv reg) :
    RegInv (stepLine broken me a nick reg line).reg := by
  unfold stepLine
  repeat' split
  all_goals dsimp only
  all_goals first
    | exact h
    | exact RegInv_joinAll me a _ _ _ h

theorem RegInv_stepNick (me : Conn) (a : Addr) (reg : Registry) (nline : String)
    (h : RegInv reg) : RegInv (stepNick me a reg nline).reg := by
  unfold stepNick
  repeat' split
  all_goals dsimp only
  all_goals first
    | exact h
    | exact RegInv_subscribe h me a _

/-- Every registry the handler loop produces satisfies the invariant: the
loop mutates the registry only through `subscribe_channel` (directly or via
the JOIN loop). -/
theorem RegInv_processLines (broken : List Conn) (me : Conn) (a : Addr) :
    ∀ (n : Nat) (lines : List String), lines.length ≤ n →
      ∀ (nick : Option String) (reg : Registry), RegInv reg →
        RegInv (processLines broken me a nick reg lines).reg := by
  intro n
  induction n with
  | zero =>
    intro lines hlen nick reg h
    have hnil : lines = [] := List.eq_nil_of_length_eq_zero (Nat.le_zero.mp hlen)
    rw [hnil]
    simpa [processLines] using h
  | succ n ih =>
    intro lines hlen nick reg h
    match lines with
    | [] => simpa [processLines] using h
    | [line] =>
      have hsr : RegInv (stepLine broken me a nick reg line).reg :=
        RegInv_stepLine broken me a nick reg line h
      by_cases h1 : (stepLine broken me a nick reg line).needNext = true
      · simpa [processLines, h1] using hsr
      · by_cases h2 : (stepLine broken me a nick reg line).halted = true
        · simpa [processLines, h1, h2] using hsr
        · have hrec := ih [] (Nat.zero_le n) (stepLine broken me a nick reg line).nick
            (stepLine broken me a nick reg line).reg hsr
          simpa [processLines, h1, h2] using hrec
    | line :: nline :: rest2 =>
      have hlen2 : rest2.length ≤ n := by
        simp only [List.length_cons] at hlen
        omega
      have hlen1 : (nline :: rest2).length ≤ n := by
        simp only [List.length_cons] at hlen ⊢
        omega
      have hsr : RegInv (stepLine broken me a nick reg line).reg :=
        RegInv_stepLine broken me a nick reg line h
      by_cases h1 : (stepLine broken me a nick reg line).needNext = true
      · have hnr : RegInv (stepNick me a (stepLine broken me a nick reg line).reg nline).reg :=
          RegInv_stepNick me a _ nline hsr
        by_cases h3 : (stepNick me a (stepLine broken me a nick reg line).reg nline).ok = true
        · have hrec := ih rest2 hlen2
            (some (stepNick me a (stepLine broken me a nick reg line).reg nline).n)
            (stepNick me a (stepLine broken me a nick reg line).reg nline).reg hnr
          simpa [processLines, h1, h3] using hrec
        · simpa [processLines, h1, h3] using hsr
      · by_cases h2 : (stepLine broken me a nick reg line).halted = true
        · simpa [processLines, h1, h2] using hsr
        · have hrec := ih (nline :: rest2) hlen1 (stepLine broken me a nick reg line).nick
            (stepLine broken me a nick reg line).reg hsr
          simpa [processLines, h1, h2] using hrec

/-- The registry the `finally` block leaves behind satisfies the invariant. -/
theorem RegInv_listener (broken : List Conn) (me : Conn) (a : Addr) (reg : Registry)
    (lines : List String) (h : RegInv reg) :
    RegInv (listener broken me a reg lines).reg := by
  unfold listener
  exact RegInv_remove
    (RegInv_processLines broken me a lines.length lines (Nat.le_refl _) none reg h) me

theorem mem_chanSubs_subscribe (reg : Registry) (me : Conn) (a : Addr) (ch : String) :
    me ∈ chanSubs (subscribe_channel reg me a ch) ch := by
  rw [chanSubs_subscribe, if_pos rfl]
  exact mem_setAdd.mpr (Or.inl rfl)

/-- A valid bridge forward line whose broadcast raises nothing: the loop
records the deliveries and continues unchanged. -/
theorem processLines_bridge_ok {line ch : String} (broken : List Conn) (me : Conn)
    (a : Addr) (nick : Option String) (reg : Registry) (rest : List String)
    {p0 p3 : String} {d : List (Conn × String)}
    (hc : pyStartsWith ":" line = true)
    (hparse : (pySplitMax3 line).map pyStrip = [p0, "PRIVMSG", ch, p3])
    (hch : pyStartsWith "#" ch = true)
    (hrep : repeat_message broken reg ch line = (d, none)) :
    processLines broken me a nick reg (line :: rest)
      = ⟨(processLines broken me a nick reg rest).replies,
         d ++ (processLines broken me a nick reg rest).deliveries,
         (processLines broken me a nick reg rest).reg,
         (processLines broken me a nick reg rest).nickname,
         (processLines broken me a nick reg rest).exitk,
         (processLines broken me a nick reg rest).closed⟩ := by
  have hs := stepLine_bridge_ok broken me a nick reg hc hparse hch hrep
  cases rest with
  | nil => simp [processLines, hs]
  | cons nline rest2 => simp [processLines, hs]

/-- C1 (amended): a single valid bridge forward line for a channel whose
subscriber set is `cs` yields exactly `cs.length` deliveries, one per
subscriber; each delivered copy equals the input line with the extra "\n"
terminator that `print(msg, file=c)` appends (so it is not byte-identical
to the input line); and no connection outside `cs` receives anything. -/
theorem C1_fanout (me : Conn) (a : Addr) (reg : Registry)
    (line ch p0 p3 : String) (cs : List Conn)
    (hInv : RegInv reg)
    (hc : pyStartsWith ":" line = true)
    (hparse : (pySplitMax3 line).map pyStrip = [p0, "PRIVMSG", ch, p3])
    (hch : pyStartsWith "#" ch = true)
    (hsubs : alook ch reg.channel_clients = some cs) :
    (listener [] me a reg [line]).deliveries = cs.map (fun c => (c, line ++ "\n")) ∧
    (listener [] me a reg [line]).deliveries.length = cs.length ∧
    (∀ c s, (c, s) ∈ (listener [] me a reg [line]).deliveries →
      c ∈ cs ∧ s = line ++ "\n") ∧
    (listener [] me a reg [line]).replies = [] := by
  have hrep := repeat_message_clean hInv hsubs line
  have hP : processLines [] me a none reg [line]
      = ⟨[], cs.map (fun c => (c, line ++ "\n")), reg, none, .eof, false⟩ := by
    rw [processLines_bridge_ok [] me a none reg [] hc hparse hch hrep]
    simp [processLines]
  have hL : listener [] me a reg [line]
      = ⟨[], cs.map (fun c => (c, line ++ "\n")), remove_subscriber reg me, none,
         .eof, true⟩ := by
    unfold listener
    rw [hP]
  refine ⟨by rw [hL], by rw [hL]; simp, ?_, by rw [hL]⟩
  intro c s hm
  rw [hL] at hm
  simp only [List.mem_map] at hm
  obtain ⟨c2, hc2, heq⟩ := hm
  injection heq with he1 he2
  rw [← he1, ← he2]
  exact ⟨hc2, rfl⟩

/-- C1 is false as stated: with one subscriber to `#x`, the delivered copy
is the input line plus the "\n" that `print` appends — not byte-identical
to the input line. -/
theorem C1_fanout_counterexample :
    (listener [] 9 ("10.0.0.9", 1)
        (subscribe_channel emptyRegistry 1 ("10.0.0.1", 5) "#x")
        [":a!a@a.t PRIVMSG #x :hi\r\n"]).deliveries
      = [(1, ":a!a@a.t PRIVMSG #x :hi\r\n" ++ "\n")] ∧
    (":a!a@a.t PRIVMSG #x :hi\r\n" ++ "\n") ≠ ":a!a@a.t PRIVMSG #x :hi\r\n" :=
  ⟨by decide, by decide⟩

theorem C1_fanout_witness :
    (listener [] 9 ("10.0.0.9", 1)
        (applyRegOps [RegOp.sub 1 ("10.0.0.1", 5) "#x", RegOp.sub 2 ("10.0.0.2", 6) "#x"])
        [":a!a@a.t PRIVMSG #x :hi\r\n"]).deliveries
      = [2, 1].map (fun c => (c, ":a!a@a.t PRIVMSG #x :hi\r\n" ++ "\n")) :=
  (C1_fanout 9 ("10.0.0.9", 1)
    (applyRegOps [RegOp.sub 1 ("10.0.0.1", 5) "#x", RegOp.sub 2 ("10.0.0.2", 6) "#x"])
    ":a!a@a.t PRIVMSG #x :hi\r\n" "#x" ":a!a@a.t" ":hi" [2, 1]
    (RegInv_applyRegOps _) (by decide) (by decide) (by decide) (by decide)).1

/-- C2: after every sequence of `subscribe_channel` / `remove_subscriber`
(the code's `unsubscribe_all`) operations from the initial empty registry,
the channel→connections and connection→channels mappings are mutual
inverses, and no channel maps to an empty subscriber set. -/
theorem C2_registry_consistency (ops : List RegOp) :
    (∀ ch c, c ∈ chanSubs (applyRegOps ops) ch ↔ ch ∈ connChans (applyRegOps ops) c) ∧
    (∀ ch cs, alook ch (applyRegOps ops).channel_clients = some cs → cs ≠ []) :=
  ⟨(RegInv_applyRegOps ops).inverse, (RegInv_applyRegOps ops).noEmptyChan⟩

theorem C2_registry_consistency_witness :
    (1 ∈ chanSubs (applyRegOps [RegOp.sub 1 ("10.0.0.1", 5) "#x"]) "#x"
      ↔ "#x" ∈ connChans (applyRegOps [RegOp.sub 1 ("10.0.0.1", 5) "#x"]) 1) ∧
    ([1] : List Conn) ≠ [] :=
  ⟨(C2_registry_consistency [RegOp.sub 1 ("10.0.0.1", 5) "#x"]).1 "#x" 1,
   (C2_registry_consistency [RegOp.sub 1 ("10.0.0.1", 5) "#x"]).2 "#x" [1] (by decide)⟩

/-- C3 (amended): when a broken subscriber is hit, the subscribers the loop
visited before it have already received the line (with the appended "\n"),
the broken subscriber and every one after it receive nothing, and the
flush exception escapes `repeat_message` to its caller. -/
theorem C3_partial_failure (broken : List Conn) (r : Registry) (ch msg : String)
    (pre post : List Conn) (b : Conn)
    (hsubs : alook ch r.channel_clients = some (pre ++ b :: post))
    (hb : b ∈ broken)
    (hpre : ∀ c ∈ pre, c ∉ broken ∧ (alook c r.client_addr).isSome = true) :
    repeat_message broken r ch msg
      = (pre.map (fun c => (c, msg ++ "\n")), some (.writeError b)) := by
  unfold repeat_message
  rw [hsubs]
  exact deliverAll_broken broken r.client_addr msg b hb pre post hpre

/-- C3 is false as stated: with subscribers `[2, 1]` to `#x` and connection
2 broken, connection 1 (one of the remaining N−1) receives nothing, and the
error escapes to `repeat_message`'s caller rather than being swallowed. -/
theorem C3_partial_failure_counterexample :
    (repeat_message [2]
        (applyRegOps [RegOp.sub 1 ("h", 1) "#x", RegOp.sub 2 ("h", 2) "#x"])
        "#x" ":a PRIVMSG #x :m\r\n").1 = [] ∧
    (repeat_message [2]
        (applyRegOps [RegOp.sub 1 ("h", 1) "#x", RegOp.sub 2 ("h", 2) "#x"])
        "#x" ":a PRIVMSG #x :m\r\n").2 ≠ none :=
  ⟨by decide, by decide⟩

theorem C3_partial_failure_witness :
    repeat_message [2]
        (applyRegOps [RegOp.sub 1 ("h", 1) "#x", RegOp.sub 2 ("h", 2) "#x"])
        "#x" ":a PRIVMSG #x :m\r\n"
      = (([] : List Conn).map (fun c => (c, ":a PRIVMSG #x :m\r\n" ++ "\n")),
         some (.writeError 2)) :=
  C3_partial_failure [2]
    (applyRegOps [RegOp.sub 1 ("h", 1) "#x", RegOp.sub 2 ("h", 2) "#x"])
    "#x" ":a PRIVMSG #x :m\r\n" [] [1] 2 (by decide) (by decide)
    (fun c hc => absurd hc (List.not_mem_nil c))

/-- C4 (amended): `PASS` followed by a well-formed two-token `NICK <n>`
yields the welcome banner (the fixed seven-line `MSG_AUTH_SUCC` template
parameterized by `n`) and the implicit subscription to `#<n>`; `PASS`
followed by a next line whose tokenisation is not exactly `NICK <n>`
yields exactly the improperly-formatted-auth notice and the connection
closes; `PASS` at the end of the stream closes the connection via
`StopIteration` with NO notice written (the claim's stream-ending case is
wrong: the code raises before replying). -/
theorem C4_auth_sequencing (broken : List Conn) (me : Conn) (a : Addr) (reg : Registry)
    (rest : List String) (pline nline bline n : String)
    (hp : pyStartsWith "PASS" pline = true)
    (hg : pySplitAll nline = ["NICK", n])
    (hb : nickLineOk (pySplitAll bline) = false) :
    ((processLines broken me a none reg (pline :: nline :: rest)).replies
        = MSG_AUTH_SUCC n ::
          (processLines broken me a (some n)
            (subscribe_channel reg me a ("#" ++ n)) rest).replies
      ∧ me ∈ chanSubs (subscribe_channel reg me a ("#" ++ n)) ("#" ++ n)) ∧
    processLines broken me a none reg (pline :: bline :: rest)
      = ⟨[MSG_AUTH_INCORRECT_ORDER], [], reg, none, .dropClient, false⟩ ∧
    processLines broken me a none reg [pline]
      = ⟨[], [], reg, none, .stopIteration, false⟩ := by
  refine ⟨⟨?_, mem_chanSubs_subscribe reg me a _⟩,
    processLines_pass_bad broken me a reg rest hp hb,
    processLines_pass_eof broken me a reg hp⟩
  rw [processLines_pass_nick broken me a reg rest hp hg]

/-- C4 is false as stated for the stream-ending case: after `PASS` with the
stream then ending, the handler writes no notice at all (the claim says
exactly the improperly-formatted-auth notice is sent). -/
theorem C4_auth_sequencing_counterexample :
    (listener [] 7 ("10.0.0.2", 4) emptyRegistry ["PASS x\r\n"]).replies
      ≠ [MSG_AUTH_INCORRECT_ORDER] := by decide

theorem C4_auth_sequencing_witness :
    processLines [] 7 ("10.0.0.2", 4) none emptyRegistry ["PASS x\r\n", "NICK a b\r\n"]
      = ⟨[MSG_AUTH_INCORRECT_ORDER], [], emptyRegistry, none, .dropClient, false⟩ ∧
    (processLines [] 7 ("10.0.0.2", 4) none emptyRegistry
        ["PASS x\r\n", "NICK bob\r\n"]).replies
      = MSG_AUTH_SUCC "bob" ::
        (processLines [] 7 ("10.0.0.2", 4) (some "bob")
          (subscribe_channel emptyRegistry 7 ("10.0.0.2", 4) "#bob") []).replies :=
  ⟨(C4_auth_sequencing [] 7 ("10.0.0.2", 4) emptyRegistry []
      "PASS x\r\n" "NICK bob\r\n" "NICK a b\r\n" "bob"
      (by decide) (by decide) (by decide)).2.1,
   (C4_auth_sequencing [] 7 ("10.0.0.2", 4) emptyRegistry []
      "PASS x\r\n" "NICK bob\r\n" "NICK a b\r\n" "bob"
      (by decide) (by decide) (by decide)).1.1⟩

/-- C5 (amended): the code keeps no per-connection role; each line is
classified independently by its own leading character.  A valid bridge
forward line leaves the consumer session state untouched and processing
continues on the remaining lines in the same state, and a `PASS`/`NICK`
pair arriving after such a bridge line still authenticates the connection
as a consumer (the claim's "role fixed for the connection's lifetime" is
wrong in both directions). -/
theorem C5_per_line_dispatch (me : Conn) (a : Addr) (nick : Option String) (reg : Registry)
    (rest : List String) (line ch p0 p3 : String) (cs : List Conn)
    (pline nline n : String) (rest2 : List String)
    (hInv : RegInv reg)
    (hc : pyStartsWith ":" line = true)
    (hparse : (pySplitMax3 line).map pyStrip = [p0, "PRIVMSG", ch, p3])
    (hch : pyStartsWith "#" ch = true)
    (hsubs : alook ch reg.channel_clients = some cs)
    (hp : pyStartsWith "PASS" pline = true)
    (hg : pySplitAll nline = ["NICK", n]) :
    processLines [] me a nick reg (line :: rest)
      = ⟨(processLines [] me a nick reg rest).replies,
         cs.map (fun c => (c, line ++ "\n"))
           ++ (processLines [] me a nick reg rest).deliveries,
         (processLines [] me a nick reg rest).reg,
         (processLines [] me a nick reg rest).nickname,
         (processLines [] me a nick reg rest).exitk,
         (processLines [] me a nick reg rest).closed⟩ ∧
    (processLines [] me a none reg (line :: pline :: nline :: rest2)).replies
      = MSG_AUTH_SUCC n ::
        (processLines [] me a (some n)
          (subscribe_channel reg me a ("#" ++ n)) rest2).replies := by
  have hrep := repeat_message_clean hInv hsubs line
  constructor
  · exact processLines_bridge_ok [] me a nick reg rest hc hparse hch hrep
  · rw [processLines_bridge_ok [] me a none reg (pline :: nline :: rest2) hc hparse hch hrep]
    rw [show (⟨(processLines [] me a none reg (pline :: nline :: rest2)).replies,
         cs.map (fun c => (c, line ++ "\n"))
           ++ (processLines [] me a none reg (pline :: nline :: rest2)).deliveries,
         (processLines [] me a none reg (pline :: nline :: rest2)).reg,
         (processLines [] me a none reg (pline :: nline :: rest2)).nickname,
         (processLines [] me a none reg (pline :: nline :: rest2)).exitk,
         (processLines [] me a none reg (pline :: nline :: rest2)).closed⟩ : HandlerOut).replies
       = (processLines [] me a none reg (pline :: nline :: rest2)).replies from rfl]
    rw [processLines_pass_nick [] me a reg rest2 hp hg]

/-- C5 is false as stated: a connection whose first line is `:`-prefixed (a
bridge line, on the claim's reading fixing the role to bridge) is treated
as a consumer afterwards — a later `PASS`/`NICK` pair authenticates it and
sends the welcome banner. -/
theorem C5_per_line_dispatch_counterexample :
    (processLines [] 7 ("10.0.0.2", 4) none emptyRegistry
        [":a!a@a.t PRIVMSG #x :hi\r\n", "PASS x\r\n", "NICK bob\r\n"]).nickname
      = some "bob" ∧
    (processLines [] 7 ("10.0.0.2", 4) none emptyRegistry
        [":a!a@a.t PRIVMSG #x :hi\r\n", "PASS x\r\n", "NICK bob\r\n"]).replies
      = [MSG_AUTH_SUCC "bob"] :=
  ⟨by decide, by decide⟩

theorem C5_per_line_dispatch_witness :
    (processLines [] 9 ("10.0.0.9", 1) none
        (applyRegOps [RegOp.sub 1 ("10.0.0.1", 5) "#x"])
        [":a!a@a.t PRIVMSG #x :hi\r\n", "PASS x\r\n", "NICK bob\r\n"]).replies
      = MSG_AUTH_SUCC "bob" ::
        (processLines [] 9 ("10.0.0.9", 1) (some "bob")
          (subscribe_channel (applyRegOps [RegOp.sub 1 ("10.0.0.1", 5) "#x"]) 9
            ("10.0.0.9", 1) "#bob") []).replies :=
  (C5_per_line_dispatch 9 ("10.0.0.9", 1) none
    (applyRegOps [RegOp.sub 1 ("10.0.0.1", 5) "#x"]) []
    ":a!a@a.t PRIVMSG #x :hi\r\n" "#x" ":a!a@a.t" ":hi" [1]
    "PASS x\r\n" "NICK bob\r\n" "bob" []
    (RegInv_applyRegOps _) (by decide) (by decide) (by decide) (by decide)
    (by decide) (by decide)).2

/-- C6 (amended): a `:`-prefixed line that does not split into exactly four
fields is silently ignored — zero deliveries and the connection continues
(the claim's teardown for that case is wrong); a four-field `PRIVMSG` line
whose channel lacks the `#` prefix fails the assert, tearing the
connection down with zero deliveries for that line. -/
theorem C6_malformed_bridge (broken : List Conn) (me : Conn) (a : Addr)
    (nick : Option String) (reg : Registry) (rest : List String)
    (line1 line2 ch p0 p3 : String)
    (hc1 : pyStartsWith ":" line1 = true)
    (hshape : ((pySplitMax3 line1).map pyStrip).length ≠ 4)
    (hc2 : pyStartsWith ":" line2 = true)
    (hparse : (pySplitMax3 line2).map pyStrip = [p0, "PRIVMSG", ch, p3])
    (hch : pyStartsWith "#" ch = false) :
    processLines broken me a nick reg (line1 :: rest)
      = processLines broken me a nick reg rest ∧
    processLines broken me a nick reg (line2 :: rest)
      = ⟨[], [], reg, nick, .assertFail, false⟩ := by
  constructor
  · have hs := stepLine_bridge_shape broken me a nick reg hc1 hshape
    cases rest with
    | nil => simp [processLines, hs]
    | cons l r2 => simp [processLines, hs]
  · have hs := stepLine_bridge_assert broken me a nick reg hc2 hparse hch
    cases rest with
    | nil => simp [processLines, hs]
    | cons l r2 => simp [processLines, hs]

/-- C6 is false as stated: a bridge line that does not split into four
fields (`":x y\r\n"`) does NOT cause teardown — the connection goes on to
authenticate and ends in clean EOF, with zero deliveries. -/
theorem C6_malformed_bridge_counterexample :
    (processLines [] 7 ("10.0.0.2", 4) none emptyRegistry
        [":x y\r\n", "PASS p\r\n", "NICK bob\r\n"]).exitk = .eof ∧
    (processLines [] 7 ("10.0.0.2", 4) none emptyRegistry
        [":x y\r\n", "PASS p\r\n", "NICK bob\r\n"]).deliveries = [] ∧
    (processLines [] 7 ("10.0.0.2", 4) none emptyRegistry
        [":x y\r\n", "PASS p\r\n", "NICK bob\r\n"]).nickname = some "bob" :=
  ⟨by decide, by decide, by decide⟩

theorem C6_malformed_bridge_witness :
    processLines [] 7 ("10.0.0.2", 4) none emptyRegistry [":x y\r\n"]
      = processLines [] 7 ("10.0.0.2", 4) none emptyRegistry [] ∧
    processLines [] 7 ("10.0.0.2", 4) none emptyRegistry
        [":a!a@a.t PRIVMSG badchan :hi\r\n"]
      = ⟨[], [], emptyRegistry, none, .assertFail, false⟩ :=
  C6_malformed_bridge [] 7 ("10.0.0.2", 4) none emptyRegistry [] ":x y\r\n"
    ":a!a@a.t PRIVMSG badchan :hi\r\n" "badchan" ":a!a@a.t" ":hi"
    (by decide) (by decide) (by decide) (by decide) (by decide)

/-- C7: a second `PASS` on an authenticated consumer yields the
auth-failure notice after the welcome banner, the connection closes via
`DropClient`, and the `finally` cleanup removes every subscription the
connection held (in particular the first-acquired nickname's channel). -/
theorem C7_double_pass (broken : List Conn) (me : Conn) (a : Addr) (reg : Registry)
    (pl1 nl pl2 n : String) (rest : List String)
    (h1 : pyStartsWith "PASS" pl1 = true)
    (hg : pySplitAll nl = ["NICK", n])
    (h2 : pyStartsWith "PASS" pl2 = true)
    (hInv : RegInv reg) :
    (listener broken me a reg (pl1 :: nl :: pl2 :: rest)).replies
        = [MSG_AUTH_SUCC n, MSG_AUTH_FAIL] ∧
    (listener broken me a reg (pl1 :: nl :: pl2 :: rest)).exitk = .dropClient ∧
    (∀ ch, me ∉ chanSubs (listener broken me a reg (pl1 :: nl :: pl2 :: rest)).reg ch) ∧
    (listener broken me a reg (pl1 :: nl :: pl2 :: rest)).closed = true := by
  have hP : processLines broken me a none reg (pl1 :: nl :: pl2 :: rest)
      = ⟨[MSG_AUTH_SUCC n, MSG_AUTH_FAIL], [],
         subscribe_channel reg me a ("#" ++ n), some n, .dropClient, false⟩ := by
    rw [processLines_pass_nick broken me a reg (pl2 :: rest) h1 hg,
        processLines_pass_again broken me a n (subscribe_channel reg me a ("#" ++ n))
          rest h2]
  have hL : listener broken me a reg (pl1 :: nl :: pl2 :: rest)
      = ⟨[MSG_AUTH_SUCC n, MSG_AUTH_FAIL], [],
         remove_subscriber (subscribe_channel reg me a ("#" ++ n)) me, some n,
         .dropClient, true⟩ := by
    unfold listener
    rw [hP]
  have hclean := (remove_cleanup (RegInv_subscribe hInv me a ("#" ++ n)) me).1
  rw [hL]
  exact ⟨rfl, rfl, fun ch => hclean ch, rfl⟩

theorem C7_double_pass_witness :
    (listener [] 7 ("10.0.0.2", 4) emptyRegistry
        ["PASS x\r\n", "NICK bob\r\n", "PASS y\r\n"]).replies
      = [MSG_AUTH_SUCC "bob", MSG_AUTH_FAIL] ∧
    7 ∉ chanSubs (listener [] 7 ("10.0.0.2", 4) emptyRegistry
        ["PASS x\r\n", "NICK bob\r\n", "PASS y\r\n"]).reg "#bob" :=
  ⟨(C7_double_pass [] 7 ("10.0.0.2", 4) emptyRegistry
      "PASS x\r\n" "NICK bob\r\n" "PASS y\r\n" "bob" []
      (by decide) (by decide) (by decide) RegInv_empty).1,
   (C7_double_pass [] 7 ("10.0.0.2", 4) emptyRegistry
      "PASS x\r\n" "NICK bob\r\n" "PASS y\r\n" "bob" []
      (by decide) (by decide) (by decide) RegInv_empty).2.2.1 "#bob"⟩

/-- C8: however the handler loop exits, the `finally` block runs
`remove_subscriber` (the code's `unsubscribe_all`) and closes the stream:
afterwards no channel's subscriber set contains the connection, and every
channel of which it was the sole subscriber at exit time is absent from the
registry entirely. -/
theorem C8_cleanup_on_exit (broken : List Conn) (me : Conn) (a : Addr) (reg : Registry)
    (lines : List String) (hInv : RegInv reg) :
    (∀ ch, me ∉ chanSubs (listener broken me a reg lines).reg ch) ∧
    (∀ ch, alook ch (processLines broken me a none reg lines).reg.channel_clients
        = some [me] →
      alook ch (listener broken me a reg lines).reg.channel_clients = none) ∧
    (listener broken me a reg lines).closed = true := by
  have hp : RegInv (processLines broken me a none reg lines).reg :=
    RegInv_processLines broken me a lines.length lines (Nat.le_refl _) none reg hInv
  have hc := remove_cleanup hp me
  unfold listener
  exact ⟨hc.1, hc.2, rfl⟩

theorem C8_cleanup_on_exit_witness :
    7 ∉ chanSubs (listener [] 7 ("10.0.0.2", 4) emptyRegistry
        ["PASS x\r\n", "NICK bob\r\n", "JOIN #a,#b\r\n"]).reg "#a" ∧
    alook "#b" (listener [] 7 ("10.0.0.2", 4) emptyRegistry
        ["PASS x\r\n", "NICK bob\r\n", "JOIN #a,#b\r\n"]).reg.channel_clients = none :=
  ⟨(C8_cleanup_on_exit [] 7 ("10.0.0.2", 4) emptyRegistry
      ["PASS x\r\n", "NICK bob\r\n", "JOIN #a,#b\r\n"] RegInv_empty).1 "#a",
   (C8_cleanup_on_exit [] 7 ("10.0.0.2", 4) emptyRegistry
      ["PASS x\r\n", "NICK bob\r\n", "JOIN #a,#b\r\n"] RegInv_empty).2.1 "#b"
     (by decide)⟩

/-- C9: an inbound line that begins with none of `:`, `PASS`, `JOIN` falls
through every branch of the handler's dispatch: the run over the remaining
lines is identical — no reply, no session-state change, no registry change,
no deliveries, no termination from that line. -/
theorem C9_unknown_command (broken : List Conn) (me : Conn) (a : Addr)
    (nick : Option String) (reg : Registry) (rest : List String) (line : String)
    (h1 : pyStartsWith ":" line = false)
    (h2 : pyStartsWith "PASS" line = false)
    (h3 : pyStartsWith "JOIN" line = false) :
    processLines broken me a nick reg (line :: rest)
      = processLines broken me a nick reg rest :=
  processLines_skip broken me a nick reg rest h1 h2 h3

theorem C9_unknown_command_witness :
    processLines [] 7 ("10.0.0.2", 4) (some "bob") emptyRegistry ["NICK carol\r\n"]
      = processLines [] 7 ("10.0.0.2", 4) (some "bob") emptyRegistry [] :=
  C9_unknown_command [] 7 ("10.0.0.2", 4) (some "bob") emptyRegistry [] "NICK carol\r\n"
    (by decide) (by decide) (by decide)

/-- C10: in every registry reachable by `subscribe_channel` /
`remove_subscriber` operations, a connection present in any channel's
subscriber set has an entry in `client_addr`, so the per-delivery
`client_addr[c]` lookup inside `repeat_message` can never raise `KeyError`:
with no broken streams a broadcast returns without any exception. -/
theorem C10_subscriber_addr (ops : List RegOp) :
    (∀ ch c, c ∈ chanSubs (applyRegOps ops) ch →
      (alook c (applyRegOps ops).client_addr).isSome = true) ∧
    (∀ ch msg, (repeat_message [] (applyRegOps ops) ch msg).2 = none) := by
  refine ⟨fun ch c hm => (RegInv_applyRegOps ops).addrPresent c ch hm, fun ch msg => ?_⟩
  cases hsubs : alook ch (applyRegOps ops).channel_clients with
  | none =>
    unfold repeat_message
    rw [hsubs]
  | some cs =>
    rw [repeat_message_clean (RegInv_applyRegOps ops) hsubs msg]

theorem C10_subscriber_addr_witness :
    (alook 1 (applyRegOps [RegOp.sub 1 ("10.0.0.1", 5) "#x"]).client_addr).isSome
      = true ∧
    (repeat_message [] (applyRegOps [RegOp.sub 1 ("10.0.0.1", 5) "#x"])
        "#x" ":a PRIVMSG #x :m\r\n").2 = none :=
  ⟨(C10_subscriber_addr [RegOp.sub 1 ("10.0.0.1", 5) "#x"]).1 "#x" 1 (by decide),
   (C10_subscriber_addr [RegOp.sub 1 ("10.0.0.1", 5) "#x"]).2 "#x" ":a PRIVMSG #x :m\r\n"⟩
